import Mathlib

/-!
Verification of the webpyter-notebook synchronization core.

The collaborative-notebook code is shallowly embedded: Yjs collaborative
text is modelled as `List Char`, a Yjs map cell as a record of field
values, the cells Y.Array as a list of entries (a Y.Map cell or some
other, non-map value), and the nondeterministic id generator
(`crypto.randomUUID`) as an explicit function parameter.  Each
definition mirrors one function of the source (file and line noted in
its doc comment).
-/

namespace WebpyterNotebook

/-- Text content, a Yjs collaborative text or JS string as a char list. -/
abbrev Str := List Char

/-! ## Client text diff (src/unnamed/part_013 lines 28-55, `applyTextDiff`) -/

/-- The first while loop of `applyTextDiff`: length of the longest common
prefix of `prev` and `next` (part_013 lines 32-39). -/
def commonPrefixLen : Str → Str → Nat
  | a :: as, b :: bs => if a = b then commonPrefixLen as bs + 1 else 0
  | _, _ => 0

/-- The second while loop of `applyTextDiff` (part_013 lines 41-50): starting
from `(ep, en) = (prev.length, next.length)`, decrement both ends while they
stay above `start` and the characters before them agree; returns the final
`(endPrev, endNext)`. -/
def suffixScan (prev next : Str) (start : Nat) (ep en : Nat) : Nat × Nat :=
  if h : start < ep ∧ start < en ∧ prev[ep - 1]? = next[en - 1]? then
    suffixScan prev next start (ep - 1) (en - 1)
  else
    (ep, en)
termination_by ep
decreasing_by
  have := h.1
  omega

/-- The single edit computed by `applyTextDiff` (part_013 lines 52-54):
`none` when `prev == next` (early return, line 30), otherwise
`some (start, deleteLen, insertText)` where the deletion range is
`[start, endPrev)` and the inserted substring is `next.slice(start, endNext)`. -/
def textDiffEdit (prev next : Str) : Option (Nat × Nat × Str) :=
  if prev = next then none
  else
    let start := commonPrefixLen prev next
    let r := suffixScan prev next start prev.length next.length
    some (start, r.1 - start, (next.drop start).take (r.2 - start))

/-- `applyTextDiff` (part_013 lines 28-55): apply the single
delete-then-insert edit to the current text.  The source skips the
`insert` call when the insert text is empty; inserting the empty list is
the identity, so the model always appends it. -/
def applyTextDiff (prev next : Str) : Str :=
  match textDiffEdit prev next with
  | none => prev
  | some (start, delLen, ins) =>
    let afterDelete := prev.take start ++ prev.drop (start + delLen)
    afterDelete.take start ++ ins ++ afterDelete.drop start

lemma commonPrefixLen_le (a b : Str) :
    commonPrefixLen a b ≤ a.length ∧ commonPrefixLen a b ≤ b.length := by
  induction a generalizing b with
  | nil => simp [commonPrefixLen]
  | cons x xs ih =>
    cases b with
    | nil => simp [commonPrefixLen]
    | cons y ys =>
      by_cases hxy : x = y
      · have := ih ys
        simp [commonPrefixLen, hxy]
        omega
      · simp [commonPrefixLen, hxy]

lemma take_commonPrefixLen_eq (a b : Str) :
    a.take (commonPrefixLen a b) = b.take (commonPrefixLen a b) := by
  induction a generalizing b with
  | nil => simp [commonPrefixLen]
  | cons x xs ih =>
    cases b with
    | nil => simp [commonPrefixLen]
    | cons y ys =>
      by_cases hxy : x = y
      · simpa [commonPrefixLen, hxy] using ih ys
      · simp [commonPrefixLen, hxy]

lemma suffixScan_spec (prev next : Str) (start : Nat) :
    ∀ ep en, ep ≤ prev.length → en ≤ next.length → start ≤ ep → start ≤ en →
      prev.drop ep = next.drop en →
      (suffixScan prev next start ep en).1 ≤ prev.length ∧
      (suffixScan prev next start ep en).2 ≤ next.length ∧
      start ≤ (suffixScan prev next start ep en).1 ∧
      start ≤ (suffixScan prev next start ep en).2 ∧
      prev.drop (suffixScan prev next start ep en).1 =
        next.drop (suffixScan prev next start ep en).2 := by
  intro ep
  induction ep using Nat.strong_induction_on with
  | _ ep ih =>
    intro en hep hen hsp hsn hdrop
    rw [suffixScan]
    split
    · next h =>
      have hlt1 : start < ep := h.1
      have hlt2 : start < en := h.2.1
      have hep1 : ep - 1 < prev.length := by omega
      have hen1 : en - 1 < next.length := by omega
      have hc : prev[ep - 1] = next[en - 1] := by
        have h1 : prev[ep - 1]? = some prev[ep - 1] := List.getElem?_eq_getElem hep1
        have h2 : next[en - 1]? = some next[en - 1] := List.getElem?_eq_getElem hen1
        have := h.2.2
        rw [h1, h2] at this
        exact Option.some.inj this
      have hd1 : prev.drop (ep - 1) = next.drop (en - 1) := by
        have hsc1 : ep - 1 + 1 = ep := by omega
        have hsc2 : en - 1 + 1 = en := by omega
        have e1 : prev.drop (ep - 1) = prev[ep - 1] :: prev.drop ep := by
          rw [List.drop_eq_getElem_cons hep1, hsc1]
        have e2 : next.drop (en - 1) = next[en - 1] :: next.drop en := by
          rw [List.drop_eq_getElem_cons hen1, hsc2]
        rw [e1, e2, hc, hdrop]
      exact ih (ep - 1) (by omega) (en - 1) (by omega) (by omega) (by omega) (by omega) hd1
    · exact ⟨hep, hen, hsp, hsn, hdrop⟩

/-- C3: for every pair of strings `(prev, next)`, applying the client's
text-diff operation to a text equal to `prev` with target `next` yields
`next`; the edit is the single delete-insert recorded by `textDiffEdit`,
and when `prev` equals `next` no edit is produced at all. -/
theorem applyTextDiff_yields_next (prev next : Str) :
    applyTextDiff prev next = next ∧ textDiffEdit prev prev = none := by
  refine ⟨?_, by simp [textDiffEdit]⟩
  unfold applyTextDiff textDiffEdit
  by_cases heq : prev = next
  · simp [heq]
  · simp only [heq, if_false]
    have hcp := commonPrefixLen_le prev next
    set start := commonPrefixLen prev next with hstart
    have hspec := suffixScan_spec prev next start prev.length next.length
      (le_refl _) (le_refl _) hcp.1 hcp.2 (by simp)
    set r := suffixScan prev next start prev.length next.length with hr
    obtain ⟨h1, h2, h3, h4, h5⟩ := hspec
    have hdel : start + (r.1 - start) = r.1 := by omega
    have htk : (prev.take start).length = start := by
      simp [List.length_take]
      omega
    have htake_ad : (prev.take start ++ prev.drop r.1).take start = prev.take start := by
      rw [List.take_append_eq_append_take, htk]
      simp
    have hdrop_ad : (prev.take start ++ prev.drop r.1).drop start = prev.drop r.1 := by
      rw [List.drop_append_eq_append_drop, htk]
      simp
    simp only [hdel, htake_ad, hdrop_ad]
    have hpref : prev.take start = next.take start := by
      rw [hstart]
      exact take_commonPrefixLen_eq prev next
    rw [hpref, h5]
    have : next.take start ++ (next.drop start).take (r.2 - start) = next.take r.2 := by
      rw [← List.take_add]
      congr 1
      omega
    rw [this, List.take_append_drop]

/-! ## Document data model

A Yjs map cell holds arbitrary values under its `id`, `type` and `content`
keys; the cells Y.Array can also hold values that are not Y.Maps (the
coordinator's sanitizer explicitly skips those with
`if (!(cell instanceof Y.Map)) continue`, part_016 line 60). -/

/-- A value stored in a cell's key: a plain JS string, a Y.Text
collaborative text (with its current character content), a number, the
absent/null value, or some other object. -/
inductive YVal where
  | vstr (s : Str)
  | vtext (s : Str)
  | vnum (n : Int)
  | vnull
  | vother
deriving DecidableEq

/-- A cell Y.Map restricted to the three keys the program uses. -/
structure YCell where
  id : YVal
  type : YVal
  content : YVal
deriving DecidableEq

/-- One element of the cells Y.Array: a Y.Map cell or any non-map value. -/
inductive CellEntry where
  | cmap (c : YCell)
  | nonMap
deriving DecidableEq

/-- The notebook Y.Doc: `doc.getText("title")` and
`doc.getArray("cells")`.  `getText` always yields a collaborative text,
so the title is inherently text in this model. -/
structure NotebookDoc where
  title : Str
  cells : List CellEntry
deriving DecidableEq

/-- The empty fresh `new Y.Doc()`. -/
def emptyNotebookDoc : NotebookDoc := ⟨[], []⟩

/-- JS `String(v)` coercion for the values of `YVal` (a Y.Text
stringifies to its character content; a generic object to
`[object Object]`). -/
def jsToString : YVal → Str
  | .vstr s => s
  | .vtext s => s
  | .vnum n => (toString n).toList
  | .vnull => []
  | .vother => "[object Object]".toList

/-- JS `c.get("id") === cellId` for an element of the cells array: true
exactly when the entry is a Y.Map whose `id` value is the string
`cellId` (a non-map entry never strictly equals a string id). -/
def entryIdIs (e : CellEntry) (cid : Str) : Bool :=
  match e with
  | .cmap c => decide (c.id = YVal.vstr cid)
  | .nonMap => false

/-- JS `Array.prototype.findIndex`: index of the first match, `-1` if none. -/
def jsFindIndex (p : CellEntry → Bool) : List CellEntry → Int
  | [] => -1
  | e :: rest =>
    if p e then 0
    else
      let r := jsFindIndex p rest
      if r = -1 then -1 else r + 1

/-- `Y.Array.insert(n, [a])`: insert `a` before position `n`. -/
def yarrayInsert (l : List CellEntry) (n : Nat) (a : CellEntry) : List CellEntry :=
  l.take n ++ a :: l.drop n

/-- `Y.Array.delete(n, 1)`: remove the element at position `n`. -/
def yarrayDelete (l : List CellEntry) (n : Nat) : List CellEntry :=
  l.take n ++ l.drop (n + 1)

/-! ## Client cell mutations (src/unnamed/part_013, `useNotebook`) -/

/-- `deleteCell` (part_013 lines 653-667), acting on the cells array:
refuse when at most one cell remains (`if (yCells.length <= 1) return`),
refuse when the id is not found (`if (index < 0) return`), otherwise
delete one element at the found index. -/
def deleteCell (cells : List CellEntry) (cellId : Str) : List CellEntry :=
  if cells.length ≤ 1 then cells
  else
    let index := jsFindIndex (fun e => entryIdIs e cellId) cells
    if index < 0 then cells
    else yarrayDelete cells index.toNat

/-- `addCell` (part_013 lines 628-651), acting on the cells array: build
the new cell `{id: newId, type, content: new Y.Text("")}` and insert it at
`afterCellId ? findIndex(afterCellId) + 1 : yCells.length`, clamped below
by 0.  The JS conditional tests truthiness, so the empty string behaves
like `null`. -/
def addCell (cells : List CellEntry) (afterCellId : Option Str) (newId ty : Str) :
    List CellEntry :=
  let yCell : CellEntry := .cmap ⟨.vstr newId, .vstr ty, .vtext []⟩
  let index : Int :=
    match afterCellId with
    | some aid =>
      if aid = [] then (cells.length : Int)
      else jsFindIndex (fun e => entryIdIs e aid) cells + 1
    | none => (cells.length : Int)
  yarrayInsert cells (max 0 index).toNat yCell

lemma yarrayDelete_length_ge (l : List CellEntry) (n : Nat) (h : 2 ≤ l.length) :
    1 ≤ (yarrayDelete l n).length := by
  unfold yarrayDelete
  simp only [List.length_append, List.length_take, List.length_drop]
  omega

lemma deleteCell_length_ge (cells : List CellEntry) (cid : Str) (h : 1 ≤ cells.length) :
    1 ≤ (deleteCell cells cid).length := by
  unfold deleteCell
  by_cases h1 : cells.length ≤ 1
  · simpa [h1] using h
  · simp only [h1, if_false]
    by_cases h2 : jsFindIndex (fun e => entryIdIs e cid) cells < 0
    · simpa [h2] using h
    · simp only [h2, if_false]
      exact yarrayDelete_length_ge _ _ (by omega)

/-- C4: a single-cell document is left untouched by `deleteCell` for any
id, and starting from at least one cell no sequence of `deleteCell` calls
reaches zero cells. -/
theorem deleteCell_preserves_nonempty (cells : List CellEntry) (cid : Str) (ids : List Str) :
    (cells.length = 1 → deleteCell cells cid = cells) ∧
    (1 ≤ cells.length → 1 ≤ (List.foldl deleteCell cells ids).length) := by
  constructor
  · intro h1
    unfold deleteCell
    simp [h1]
  · intro h1
    induction ids generalizing cells with
    | nil => simpa using h1
    | cons i rest ih =>
      simpa using ih (deleteCell cells i) (deleteCell_length_ge cells i h1)

/-- Witness for `deleteCell_preserves_nonempty` at a concrete one-cell
document. -/
theorem deleteCell_preserves_nonempty_witness :
    deleteCell [CellEntry.cmap ⟨.vstr ("a".toList), .vstr ("code".toList), .vtext []⟩]
        ("a".toList) =
      [CellEntry.cmap ⟨.vstr ("a".toList), .vstr ("code".toList), .vtext []⟩] ∧
    1 ≤ (List.foldl deleteCell
        [CellEntry.cmap ⟨.vstr ("a".toList), .vstr ("code".toList), .vtext []⟩]
        [("a".toList), ("b".toList)]).length := by
  constructor
  · exact (deleteCell_preserves_nonempty _ ("a".toList) []).1 (by decide)
  · exact (deleteCell_preserves_nonempty _ ("a".toList) [("a".toList), ("b".toList)]).2
      (by decide)

lemma jsFindIndex_eq_neg_one (p : CellEntry → Bool) (l : List CellEntry)
    (h : ∀ e ∈ l, p e = false) : jsFindIndex p l = -1 := by
  induction l with
  | nil => rfl
  | cons e rest ih =>
    have he : p e = false := h e (by simp)
    have hr : jsFindIndex p rest = -1 := ih (fun x hx => h x (by simp [hx]))
    simp [jsFindIndex, he, hr]

/-- C10 counterexample: with a one-cell document and the non-null
`afterCellId = ""` (which matches no cell id), `addCell` appends at the
end of the sequence, not at index 0. -/
theorem addCell_empty_afterid_counterexample :
    addCell [CellEntry.cmap ⟨.vstr ("a".toList), .vstr ("code".toList), .vtext []⟩]
        (some []) ("n".toList) ("code".toList) =
      [CellEntry.cmap ⟨.vstr ("a".toList), .vstr ("code".toList), .vtext []⟩,
       CellEntry.cmap ⟨.vstr ("n".toList), .vstr ("code".toList), .vtext []⟩] ∧
    addCell [CellEntry.cmap ⟨.vstr ("a".toList), .vstr ("code".toList), .vtext []⟩]
        (some []) ("n".toList) ("code".toList) ≠
      CellEntry.cmap ⟨.vstr ("n".toList), .vstr ("code".toList), .vtext []⟩ ::
        [CellEntry.cmap ⟨.vstr ("a".toList), .vstr ("code".toList), .vtext []⟩] := by
  constructor
  · decide
  · decide

/-- C10 amended: for every non-empty `afterCellId` matching no cell id,
`addCell` inserts the new cell (generated id, requested type, empty
collaborative text) at index 0; the empty string is falsy in JS and is
routed to the insert-at-end branch instead. -/
theorem addCell_unmatched_inserts_at_head (cells : List CellEntry) (aid newId ty : Str)
    (hne : aid ≠ []) (hmiss : ∀ e ∈ cells, entryIdIs e aid = false) :
    addCell cells (some aid) newId ty =
      CellEntry.cmap ⟨.vstr newId, .vstr ty, .vtext []⟩ :: cells := by
  unfold addCell
  have hidx : jsFindIndex (fun e => entryIdIs e aid) cells = -1 :=
    jsFindIndex_eq_neg_one _ _ hmiss
  simp [hne, hidx, yarrayInsert]

/-- Witness for `addCell_unmatched_inserts_at_head` at a concrete document. -/
theorem addCell_unmatched_inserts_at_head_witness :
    addCell [CellEntry.cmap ⟨.vstr ("a".toList), .vstr ("code".toList), .vtext []⟩]
        (some ("z".toList)) ("n".toList) ("markdown".toList) =
      CellEntry.cmap ⟨.vstr ("n".toList), .vstr ("markdown".toList), .vtext []⟩ ::
        [CellEntry.cmap ⟨.vstr ("a".toList), .vstr ("code".toList), .vtext []⟩] :=
  addCell_unmatched_inserts_at_head _ _ _ _ (by decide) (by decide)

/-! ## Coordinator sanitization (src/unnamed/part_016 lines 52-100,
`sanitizeNotebookCells`)

The id generator `randomId()` (part_016 lines 23-28) is nondeterministic;
it is modelled as an explicit parameter `fresh : List Str → Str` mapping
the current used-id set to the minted id.  The source retries
`while (usedIds.has(next)) next = randomId()`, so the minted id is never
in the used set; it is a UUID or hex string, hence non-empty and free of
surrounding whitespace.  `FreshOK` records exactly these three facts. -/

/-- JS `String.prototype.trim`: strip leading and trailing whitespace
(`rdropWhile p l` is `(l.reverse.dropWhile p).reverse`). -/
def jsTrim (s : Str) : Str :=
  (s.dropWhile Char.isWhitespace).rdropWhile Char.isWhitespace

/-- Properties of the source's retry-looped `randomId` minting. -/
def FreshOK (fresh : List Str → Str) : Prop :=
  ∀ u, fresh u ∉ u ∧ fresh u ≠ [] ∧ jsTrim (fresh u) = fresh u

/-- The id coercion and minting of the sanitizer (part_016 lines 62-80):
coerce the raw value to a string (`""` for null/undefined), trim it, and
replace it by a minted id when empty or already used; re-store the trimmed
string when trimming changed the raw value.  Returns
(stored id value, final id string, mutated). -/
def sanitizeId (fresh : List Str → Str) (used : List Str) (rawId : YVal) :
    YVal × Str × Bool :=
  let id0 : Str :=
    match rawId with
    | .vstr s => s
    | .vnull => []
    | v => jsToString v
  let id1 := jsTrim id0
  if id1 = [] ∨ id1 ∈ used then
    (.vstr (fresh used), fresh used, true)
  else if rawId ≠ YVal.vstr id1 then
    (.vstr id1, id1, true)
  else
    (.vstr id1, id1, false)

/-- The type coercion of the sanitizer (part_016 lines 84-88): any value
other than the strings "code"/"markdown" becomes "code". -/
def sanitizeType (t : YVal) : YVal × Bool :=
  if t ≠ YVal.vstr ("code".toList) ∧ t ≠ YVal.vstr ("markdown".toList) then
    (YVal.vstr ("code".toList), true)
  else
    (t, false)

/-- The content coercion of the sanitizer (part_016 lines 90-95): keep a
Y.Text, wrap a plain string into a new Y.Text, replace anything else by an
empty Y.Text. -/
def sanitizeContent (v : YVal) : YVal × Bool :=
  match v with
  | .vtext s => (.vtext s, false)
  | .vstr s => (.vtext s, true)
  | _ => (.vtext [], true)

/-- One iteration of the sanitizer loop body on a Y.Map cell
(part_016 lines 62-95); also returns the grown used-id set
(`usedIds.add(id)`) and whether any key was rewritten. -/
def sanitizeCell (fresh : List Str → Str) (used : List Str) (c : YCell) :
    YCell × List Str × Bool :=
  let ri := sanitizeId fresh used c.id
  let rt := sanitizeType c.type
  let rc := sanitizeContent c.content
  (⟨ri.1, rt.1, rc.1⟩, used ++ [ri.2.1], ri.2.2 || (rt.2 || rc.2))

/-- The sanitizer loop over the cells array (part_016 lines 57-97):
non-map entries are skipped (`if (!(cell instanceof Y.Map)) continue`). -/
def sanitizeEntries (fresh : List Str → Str) :
    List Str → List CellEntry → List CellEntry × List Str × Bool
  | used, [] => ([], used, false)
  | used, .nonMap :: rest =>
    let r := sanitizeEntries fresh used rest
    (.nonMap :: r.1, r.2.1, r.2.2)
  | used, .cmap c :: rest =>
    let rc := sanitizeCell fresh used c
    let r := sanitizeEntries fresh rc.2.1 rest
    (.cmap rc.1 :: r.1, r.2.1, rc.2.2 || r.2.2)

/-- `sanitizeNotebookCells` (part_016 lines 52-100): sanitize the cells
array inside one transaction; the title is untouched.  Returns the
document and the `mutated` flag. -/
def sanitizeNotebookCells (fresh : List Str → Str) (d : NotebookDoc) :
    NotebookDoc × Bool :=
  let r := sanitizeEntries fresh [] d.cells
  (⟨d.title, r.1⟩, r.2.2)

/-- The string ids of the Y.Map entries of a cells array. -/
def mapIds : List CellEntry → List Str
  | [] => []
  | .cmap c :: rest =>
    match c.id with
    | .vstr s => s :: mapIds rest
    | _ => mapIds rest
  | .nonMap :: rest => mapIds rest

/-- A concrete generator satisfying `FreshOK`: an all-letter id strictly
longer than every used id. -/
def witnessFresh (u : List Str) : Str :=
  List.replicate ((u.map List.length).sum + 1) 'a'

lemma jsTrim_idem (s : Str) : jsTrim (jsTrim s) = jsTrim s := by
  unfold jsTrim
  have hda : (s.dropWhile Char.isWhitespace).dropWhile Char.isWhitespace =
      s.dropWhile Char.isWhitespace := List.dropWhile_idempotent _ _
  set a := s.dropWhile Char.isWhitespace with ha
  set t := a.rdropWhile Char.isWhitespace with ht
  have hpre : t <+: a := List.rdropWhile_prefix Char.isWhitespace a
  have hdt : t.dropWhile Char.isWhitespace = t := by
    rw [List.dropWhile_eq_self_iff]
    intro hl
    obtain ⟨r, hra⟩ := hpre
    have h0a : 0 < a.length := by
      rw [← hra, List.length_append]
      omega
    have hget : a.get ⟨0, h0a⟩ = t.get ⟨0, hl⟩ := by
      simp only [← hra, List.get_eq_getElem]
      exact List.getElem_append_left hl
    have := List.dropWhile_eq_self_iff.mp hda h0a
    rw [← hget]
    exact this
  rw [hdt, ht, List.rdropWhile_idempotent]

lemma witnessFresh_ok : FreshOK witnessFresh := by
  intro u
  refine ⟨?_, by simp [witnessFresh], ?_⟩
  · intro hmem
    have hlen : (witnessFresh u).length ∈ u.map List.length :=
      List.mem_map_of_mem List.length hmem
    have hle : (witnessFresh u).length ≤ (u.map List.length).sum :=
      List.single_le_sum (fun x _ => Nat.zero_le x) _ hlen
    have : (witnessFresh u).length = (u.map List.length).sum + 1 := by
      simp [witnessFresh]
    omega
  · have hmem : ∀ x ∈ witnessFresh u, x = 'a' := by
      intro x hx
      exact List.eq_of_mem_replicate hx
    unfold jsTrim
    have h1 : (witnessFresh u).dropWhile Char.isWhitespace = witnessFresh u := by
      rw [List.dropWhile_eq_self_iff]
      intro hl
      have := hmem _ (List.get_mem _ 0 hl)
      rw [this]
      decide
    rw [h1, List.rdropWhile_eq_self_iff]
    intro hl
    have := hmem _ (List.getLast_mem hl)
    rw [this]
    decide

/-- The invariant established for each Y.Map cell by one sanitizer pass. -/
def CellSanitized (c : YCell) : Prop :=
  (∃ i, c.id = .vstr i ∧ i ≠ [] ∧ jsTrim i = i) ∧
  (c.type = .vstr ("code".toList) ∨ c.type = .vstr ("markdown".toList)) ∧
  (∃ s, c.content = .vtext s)

lemma sanitizeId_spec {fresh : List Str → Str} (hf : FreshOK fresh)
    (used : List Str) (rawId : YVal) :
    (sanitizeId fresh used rawId).1 = .vstr (sanitizeId fresh used rawId).2.1 ∧
    (sanitizeId fresh used rawId).2.1 ∉ used ∧
    (sanitizeId fresh used rawId).2.1 ≠ [] ∧
    jsTrim (sanitizeId fresh used rawId).2.1 = (sanitizeId fresh used rawId).2.1 := by
  obtain ⟨hn, hne, htr⟩ := hf used
  unfold sanitizeId
  dsimp only
  split_ifs with h1 h2
  · exact ⟨rfl, hn, hne, htr⟩
  · push_neg at h1
    exact ⟨rfl, h1.2, h1.1, jsTrim_idem _⟩
  · push_neg at h1
    exact ⟨rfl, h1.2, h1.1, jsTrim_idem _⟩

lemma sanitizeId_fixed {fresh : List Str → Str} (used : List Str) (i : Str)
    (hne : i ≠ []) (htr : jsTrim i = i) (hnu : i ∉ used) :
    sanitizeId fresh used (.vstr i) = (.vstr i, i, false) := by
  unfold sanitizeId
  simp only [htr]
  have h1 : ¬ (i = [] ∨ i ∈ used) := by
    intro h
    rcases h with h | h
    · exact hne h
    · exact hnu h
  simp [h1]

lemma sanitizeType_ok (t : YVal) :
    (sanitizeType t).1 = .vstr ("code".toList) ∨
    (sanitizeType t).1 = .vstr ("markdown".toList) := by
  unfold sanitizeType
  split_ifs with h
  · exact Or.inl rfl
  · rcases not_and_or.mp h with h | h
    · exact Or.inl (not_not.mp h)
    · exact Or.inr (not_not.mp h)

lemma sanitizeType_fixed (t : YVal)
    (h : t = .vstr ("code".toList) ∨ t = .vstr ("markdown".toList)) :
    sanitizeType t = (t, false) := by
  unfold sanitizeType
  split_ifs with hcond
  · exfalso
    rcases h with h | h
    · exact hcond.1 h
    · exact hcond.2 h
  · rfl

lemma sanitizeContent_text (v : YVal) : ∃ s, (sanitizeContent v).1 = .vtext s := by
  cases v <;> simp [sanitizeContent]

lemma sanitizeContent_fixed (s : Str) : sanitizeContent (.vtext s) = (.vtext s, false) := rfl

lemma sanitizeCell_sanitized {fresh : List Str → Str} (hf : FreshOK fresh)
    (used : List Str) (c : YCell) :
    CellSanitized (sanitizeCell fresh used c).1 ∧
    (sanitizeCell fresh used c).2.1 = used ++ [(sanitizeId fresh used c.id).2.1] ∧
    (sanitizeId fresh used c.id).2.1 ∉ used ∧
    (sanitizeCell fresh used c).1.id = .vstr (sanitizeId fresh used c.id).2.1 := by
  obtain ⟨hid, hnu, hne, htr⟩ := sanitizeId_spec hf used c.id
  refine ⟨⟨⟨(sanitizeId fresh used c.id).2.1, ?_, hne, htr⟩, ?_, ?_⟩, rfl, hnu, ?_⟩
  · exact hid
  · exact sanitizeType_ok c.type
  · exact sanitizeContent_text c.content
  · exact hid

lemma sanitizeCell_fixed (fresh : List Str → Str) (used : List Str) (c : YCell)
    (hc : CellSanitized c) (hnu : ∀ i, c.id = .vstr i → i ∉ used) :
    ∃ i, c.id = .vstr i ∧ sanitizeCell fresh used c = (c, used ++ [i], false) := by
  obtain ⟨cid, cty, cct⟩ := c
  obtain ⟨⟨i, hid, hne, htr⟩, hty, hs, hct⟩ := hc
  simp only at hid hty hct hnu
  subst hid
  subst hct
  refine ⟨i, rfl, ?_⟩
  unfold sanitizeCell
  rw [show (YCell.mk (YVal.vstr i) cty (YVal.vtext hs)).id = YVal.vstr i from rfl,
    sanitizeId_fixed used i hne htr (hnu i rfl),
    show (YCell.mk (YVal.vstr i) cty (YVal.vtext hs)).type = cty from rfl,
    sanitizeType_fixed cty hty,
    show (YCell.mk (YVal.vstr i) cty (YVal.vtext hs)).content = YVal.vtext hs from rfl,
    sanitizeContent_fixed]
  rfl

lemma mapIds_cons_cmap (c : YCell) (rest : List CellEntry) (i : Str)
    (h : c.id = .vstr i) : mapIds (.cmap c :: rest) = i :: mapIds rest := by
  simp [mapIds, h]

lemma mapIds_cons_nonMap (rest : List CellEntry) :
    mapIds (.nonMap :: rest) = mapIds rest := rfl

lemma sanitizeEntries_spec {fresh : List Str → Str} (hf : FreshOK fresh) :
    ∀ (es : List CellEntry) (used : List Str),
      (sanitizeEntries fresh used es).2.1 =
        used ++ mapIds (sanitizeEntries fresh used es).1 ∧
      (∀ c, CellEntry.cmap c ∈ (sanitizeEntries fresh used es).1 → CellSanitized c) ∧
      (used.Nodup → ((sanitizeEntries fresh used es).2.1).Nodup) := by
  intro es
  induction es with
  | nil =>
    intro used
    refine ⟨by simp [sanitizeEntries, mapIds], by simp [sanitizeEntries], ?_⟩
    intro h
    simpa [sanitizeEntries] using h
  | cons e rest ih =>
    intro used
    cases e with
    | nonMap =>
      obtain ⟨h1, h2, h3⟩ := ih used
      refine ⟨?_, ?_, ?_⟩
      · simpa [sanitizeEntries, mapIds_cons_nonMap] using h1
      · intro c hc
        have : CellEntry.cmap c ∈ (sanitizeEntries fresh used rest).1 := by
          simpa [sanitizeEntries] using hc
        exact h2 c this
      · intro hU
        simpa [sanitizeEntries] using h3 hU
    | cmap c =>
      obtain ⟨hsan, hused, hnu, hid⟩ := sanitizeCell_sanitized hf used c
      obtain ⟨h1, h2, h3⟩ := ih (sanitizeCell fresh used c).2.1
      refine ⟨?_, ?_, ?_⟩
      · have hmap : mapIds (.cmap (sanitizeCell fresh used c).1 ::
            (sanitizeEntries fresh (sanitizeCell fresh used c).2.1 rest).1) =
            (sanitizeId fresh used c.id).2.1 ::
              (mapIds (sanitizeEntries fresh (sanitizeCell fresh used c).2.1 rest).1) :=
          mapIds_cons_cmap _ _ _ hid
        simp only [sanitizeEntries]
        rw [h1, hmap, hused, List.append_assoc, List.singleton_append]
      · intro c' hc'
        simp only [sanitizeEntries, List.mem_cons] at hc'
        rcases hc' with hc' | hc'
        · have : c' = (sanitizeCell fresh used c).1 := CellEntry.cmap.inj hc'
          rw [this]
          exact hsan
        · exact h2 c' hc'
      · intro hU
        have hU2 : ((sanitizeCell fresh used c).2.1).Nodup := by
          rw [hused, List.nodup_append]
          refine ⟨hU, List.nodup_singleton _, ?_⟩
          intro x hx hx1
          rw [List.mem_singleton] at hx1
          rw [hx1] at hx
          exact hnu hx
        simpa [sanitizeEntries] using h3 hU2

lemma sanitizeEntries_fixed (fresh : List Str → Str) :
    ∀ (es : List CellEntry) (used : List Str),
      (∀ c, CellEntry.cmap c ∈ es → CellSanitized c) →
      (used ++ mapIds es).Nodup →
      sanitizeEntries fresh used es = (es, used ++ mapIds es, false) := by
  intro es
  induction es with
  | nil =>
    intro used _ _
    simp [sanitizeEntries, mapIds]
  | cons e rest ih =>
    intro used hwf hnd
    cases e with
    | nonMap =>
      have hr := ih used (fun c hc => hwf c (by simp [hc]))
        (by simpa [mapIds_cons_nonMap] using hnd)
      simp [sanitizeEntries, hr, mapIds_cons_nonMap]
    | cmap c =>
      have hc : CellSanitized c := hwf c (by simp)
      obtain ⟨⟨i0, hid0, -, -⟩, -, -⟩ := id hc
      have hmap : mapIds (.cmap c :: rest) = i0 :: mapIds rest :=
        mapIds_cons_cmap _ _ _ hid0
      rw [hmap] at hnd
      have hnu : ∀ i, c.id = .vstr i → i ∉ used := by
        intro i hi hmem
        have hii : i = i0 := by
          rw [hi] at hid0
          exact YVal.vstr.inj hid0
        rw [List.nodup_append] at hnd
        exact hnd.2.2 hmem (by simp [hii])
      obtain ⟨i, hid, heq⟩ := sanitizeCell_fixed fresh used c hc hnu
      have hii : i = i0 := by
        rw [hid] at hid0
        exact YVal.vstr.inj hid0
      subst hii
      have hnd' : ((used ++ [i]) ++ mapIds rest).Nodup := by
        rw [List.append_assoc, List.singleton_append]
        exact hnd
      have hrest := ih (used ++ [i]) (fun c' h' => hwf c' (by simp [h'])) hnd'
      simp only [sanitizeEntries, heq, hrest]
      rw [hmap, List.append_assoc]
      simp

/-- C7: the coordinator's sanitization is idempotent — a second run
returns the same document and reports `mutated = false`. -/
theorem sanitize_idempotent (fresh : List Str → Str) (hf : FreshOK fresh)
    (d : NotebookDoc) :
    sanitizeNotebookCells fresh (sanitizeNotebookCells fresh d).1 =
      ((sanitizeNotebookCells fresh d).1, false) := by
  obtain ⟨h1, h2, h3⟩ := sanitizeEntries_spec hf d.cells []
  have hnd : (([] : List Str) ++ mapIds (sanitizeEntries fresh [] d.cells).1).Nodup := by
    rw [← h1]
    exact h3 List.nodup_nil
  have hfix := sanitizeEntries_fixed fresh (sanitizeEntries fresh [] d.cells).1 [] h2 hnd
  unfold sanitizeNotebookCells
  dsimp only
  rw [hfix]

/-- A concrete document exercising the sanitizer's branches: a missing
id, a skipped non-map entry, an id needing trimming plus a non-string
type and missing content, and a colliding id with a Y.Text type. -/
def cDocA : NotebookDoc :=
  ⟨"T".toList,
   [.cmap ⟨.vnull, .vstr ("code".toList), .vstr ("x".toList)⟩,
    .nonMap,
    .cmap ⟨.vstr (" a ".toList), .vnum 3, .vnull⟩,
    .cmap ⟨.vstr ("a".toList), .vtext ("y".toList), .vtext ("z".toList)⟩]⟩

/-- Witness for `sanitize_idempotent` on a concrete document. -/
theorem sanitize_idempotent_witness :
    sanitizeNotebookCells witnessFresh (sanitizeNotebookCells witnessFresh cDocA).1 =
      ((sanitizeNotebookCells witnessFresh cDocA).1, false) :=
  sanitize_idempotent witnessFresh witnessFresh_ok cDocA

/-- The per-entry invariant exactly as the claim words it: the entry is a
Y.Map cell whose id is a non-empty string, whose type is "code" or
"markdown", and whose content is a collaborative-text node. -/
def EntryWellFormed (e : CellEntry) : Prop :=
  ∃ c, e = .cmap c ∧
    (∃ i, c.id = .vstr i ∧ i ≠ []) ∧
    (c.type = .vstr ("code".toList) ∨ c.type = .vstr ("markdown".toList)) ∧
    (∃ s, c.content = .vtext s)

/-- The document invariant exactly as the claim words it, over every
element of the cells sequence. -/
def DocInvariantAsClaimed (d : NotebookDoc) : Prop :=
  (∀ e ∈ d.cells, EntryWellFormed e) ∧ (mapIds d.cells).Nodup

/-- C1 counterexample: a document whose cells array holds a non-map
value (possible after hydrating an arbitrary snapshot) passes through
the sanitizer untouched — the sanitizer's
`if (!(cell instanceof Y.Map)) continue` skips it — so the sanitized
document still violates the claimed every-cell invariant. -/
theorem sanitize_nonmap_entry_counterexample :
    sanitizeNotebookCells witnessFresh ⟨[], [CellEntry.nonMap]⟩ =
      (⟨[], [CellEntry.nonMap]⟩, false) ∧
    ¬ DocInvariantAsClaimed ⟨[], [CellEntry.nonMap]⟩ := by
  constructor
  · rfl
  · intro h
    obtain ⟨c, hc, _⟩ := h.1 CellEntry.nonMap (by simp)
    exact CellEntry.noConfusion hc

/-- C1 amended: after a sanitizer run (cold-start hydrate+sanitize, or
the run on each WebSocket upgrade), every Y.Map entry of the cells array
is well-formed — non-empty string id, type in {code, markdown},
collaborative-text content — and the map-entry ids are pairwise
distinct; non-map array entries are skipped by the sanitizer and are
exempt.  The title is collaborative text by `doc.getText` construction. -/
theorem sanitize_wellformed_ids (fresh : List Str → Str) (hf : FreshOK fresh)
    (d : NotebookDoc) :
    (∀ c, CellEntry.cmap c ∈ (sanitizeNotebookCells fresh d).1.cells →
      EntryWellFormed (.cmap c)) ∧
    (mapIds (sanitizeNotebookCells fresh d).1.cells).Nodup := by
  obtain ⟨h1, h2, h3⟩ := sanitizeEntries_spec hf d.cells []
  constructor
  · intro c hc
    obtain ⟨⟨i, hid, hne, _⟩, hty, hct⟩ := h2 c hc
    exact ⟨c, rfl, ⟨i, hid, hne⟩, hty, hct⟩
  · have hnd := h3 List.nodup_nil
    rw [h1] at hnd
    simpa using hnd

/-- A concrete document with colliding ids for the C1 witness. -/
def cDocB : NotebookDoc :=
  ⟨[],
   [.cmap ⟨.vstr ("dup".toList), .vnull, .vnull⟩,
    .cmap ⟨.vstr ("dup".toList), .vstr ("markdown".toList), .vtext []⟩]⟩

/-- Witness for `sanitize_wellformed_ids` on a concrete document with a
duplicated id. -/
theorem sanitize_wellformed_ids_witness :
    (∀ c, CellEntry.cmap c ∈ (sanitizeNotebookCells witnessFresh cDocB).1.cells →
      EntryWellFormed (.cmap c)) ∧
    (mapIds (sanitizeNotebookCells witnessFresh cDocB).1.cells).Nodup :=
  sanitize_wellformed_ids witnessFresh witnessFresh_ok cDocB

/-! ## Coordinator cold start and snapshot endpoint
(src/unnamed/part_016, `initDefaultNotebook` lines 30-50,
`NotebookDO` constructor lines 150-163, `fetch` lines 166-181)

The Yjs byte codec is external library code: `Y.encodeStateAsUpdate`
followed by `Y.applyUpdate` on a fresh document reproduces the document
state, so the snapshot byte payload is modelled by the document state
itself and the round trip by the identity. -/

def defaultTitle : Str := "Untitled Notebook".toList

def defaultMdContent : Str :=
  "# New Notebook\n\nWelcome! Share this URL to collaborate.".toList

def defaultCodeContent : Str :=
  "# Write Python code here\n# Shift+Enter to run".toList

/-- `initDefaultNotebook` (part_016 lines 30-50): insert the default
title when the title text is empty, and when the cells array is empty
seed the markdown welcome cell and the code placeholder cell, with two
minted ids. -/
def initDefaultNotebook (id1 id2 : Str) (d : NotebookDoc) : NotebookDoc :=
  let title := if d.title.length = 0 then defaultTitle else d.title
  if d.cells.length > 0 then ⟨title, d.cells⟩
  else
    ⟨title,
     [.cmap ⟨.vstr id1, .vstr ("markdown".toList), .vtext defaultMdContent⟩,
      .cmap ⟨.vstr id2, .vstr ("code".toList), .vtext defaultCodeContent⟩]⟩

/-- Outcome of the constructor's `blockConcurrencyWhile` block: the
in-memory document, the stored snapshot, and readiness
(`initializing = false`). -/
structure ColdStartResult where
  doc : NotebookDoc
  storage : Option NotebookDoc
  ready : Bool
deriving DecidableEq

/-- The `blockConcurrencyWhile` body (part_016 lines 150-163) given the
storage read result: a present snapshot is applied to the fresh doc,
an absent one triggers default seeding plus an immediate persist; the
sanitizer then runs, persisting again if it mutated. -/
def coldStartHydrate (fresh : List Str → Str) (id1 id2 : Str)
    (stored : Option NotebookDoc) : ColdStartResult :=
  match stored with
  | some s =>
    let r := sanitizeNotebookCells fresh s
    { doc := r.1, storage := if r.2 then some r.1 else some s, ready := true }
  | none =>
    let d0 := initDefaultNotebook id1 id2 emptyNotebookDoc
    let r := sanitizeNotebookCells fresh d0
    { doc := r.1, storage := if r.2 then some r.1 else some d0, ready := true }

/-- The same block when the storage read itself can fail: the source has
no try/catch around `this.state.storage.get` (part_016 line 151), so a
read failure rejects the whole `blockConcurrencyWhile` promise instead
of seeding anything. -/
def coldStartHydrateE (fresh : List Str → Str) (id1 id2 : Str)
    (stored : Except Str (Option NotebookDoc)) : Except Str ColdStartResult :=
  match stored with
  | .error e => .error e
  | .ok s => .ok (coldStartHydrate fresh id1 id2 s)

/-- The HTTP response of `GET /{notebookId}/snapshot`
(part_016 lines 171-178); the body stands for
`Y.encodeStateAsUpdate(doc)`. -/
structure SnapshotResponse where
  status : Nat
  contentType : Str
  body : NotebookDoc
deriving DecidableEq

/-- The snapshot branch of `NotebookDO.fetch` (part_016 lines 172-178). -/
def snapshotGet (doc : NotebookDoc) : SnapshotResponse :=
  { status := 200, contentType := "application/octet-stream".toList, body := doc }

/-- `Y.applyUpdate(new Y.Doc(), body)`: the library round trip
reproduces the encoded document. -/
def applyUpdateToFreshDoc (body : NotebookDoc) : NotebookDoc := body

lemma sanitizeCell_type_content (fresh : List Str → Str) (used : List Str) (c : YCell)
    (hty : c.type = .vstr ("code".toList) ∨ c.type = .vstr ("markdown".toList))
    (s : Str) (hct : c.content = .vtext s) :
    (sanitizeCell fresh used c).1.type = c.type ∧
    (sanitizeCell fresh used c).1.content = .vtext s := by
  unfold sanitizeCell
  dsimp only
  rw [sanitizeType_fixed c.type hty, hct, sanitizeContent_fixed]
  exact ⟨rfl, rfl⟩

lemma coldStartHydrate_none_spec (fresh : List Str → Str) (id1 id2 : Str) :
    (coldStartHydrate fresh id1 id2 none).doc.title = defaultTitle ∧
    (coldStartHydrate fresh id1 id2 none).doc.cells.length = 2 ∧
    (coldStartHydrate fresh id1 id2 none).storage.isSome = true ∧
    (coldStartHydrate fresh id1 id2 none).ready = true ∧
    (∃ c, (coldStartHydrate fresh id1 id2 none).doc.cells[0]? = some (.cmap c) ∧
      c.type = .vstr ("markdown".toList) ∧ c.content = .vtext defaultMdContent) ∧
    (∃ c, (coldStartHydrate fresh id1 id2 none).doc.cells[1]? = some (.cmap c) ∧
      c.type = .vstr ("code".toList) ∧ c.content = .vtext defaultCodeContent) := by
  have hd : (coldStartHydrate fresh id1 id2 none).doc =
      ⟨defaultTitle,
       (sanitizeEntries fresh []
         [.cmap ⟨.vstr id1, .vstr ("markdown".toList), .vtext defaultMdContent⟩,
          .cmap ⟨.vstr id2, .vstr ("code".toList), .vtext defaultCodeContent⟩]).1⟩ := rfl
  have hes : (sanitizeEntries fresh []
        [.cmap ⟨.vstr id1, .vstr ("markdown".toList), .vtext defaultMdContent⟩,
         .cmap ⟨.vstr id2, .vstr ("code".toList), .vtext defaultCodeContent⟩]).1 =
      [.cmap (sanitizeCell fresh []
         ⟨.vstr id1, .vstr ("markdown".toList), .vtext defaultMdContent⟩).1,
       .cmap (sanitizeCell fresh
         (sanitizeCell fresh []
           ⟨.vstr id1, .vstr ("markdown".toList), .vtext defaultMdContent⟩).2.1
         ⟨.vstr id2, .vstr ("code".toList), .vtext defaultCodeContent⟩).1] := by
    simp [sanitizeEntries]
  obtain ⟨hty1, hct1⟩ := sanitizeCell_type_content fresh []
    ⟨.vstr id1, .vstr ("markdown".toList), .vtext defaultMdContent⟩
    (Or.inr rfl) defaultMdContent rfl
  obtain ⟨hty2, hct2⟩ := sanitizeCell_type_content fresh
    (sanitizeCell fresh []
      ⟨.vstr id1, .vstr ("markdown".toList), .vtext defaultMdContent⟩).2.1
    ⟨.vstr id2, .vstr ("code".toList), .vtext defaultCodeContent⟩
    (Or.inl rfl) defaultCodeContent rfl
  refine ⟨by rw [hd], ?_, ?_, rfl, ?_, ?_⟩
  · rw [hd]
    show (sanitizeEntries fresh [] _).1.length = 2
    rw [hes]
    rfl
  · show (if (sanitizeNotebookCells fresh (initDefaultNotebook id1 id2 emptyNotebookDoc)).2
        then some (sanitizeNotebookCells fresh (initDefaultNotebook id1 id2 emptyNotebookDoc)).1
        else some (initDefaultNotebook id1 id2 emptyNotebookDoc)).isSome = true
    cases (sanitizeNotebookCells fresh (initDefaultNotebook id1 id2 emptyNotebookDoc)).2 <;> rfl
  · refine ⟨_, ?_, hty1, hct1⟩
    rw [hd]
    show (sanitizeEntries fresh [] _).1[0]? = _
    rw [hes]
    rfl
  · refine ⟨_, ?_, hty2, hct2⟩
    rw [hd]
    show (sanitizeEntries fresh [] _).1[1]? = _
    rw [hes]
    rfl

/-- C2: a fresh coordinator with no stored snapshot seeds and persists
the default notebook; `GET /{notebookId}/snapshot` answers 200
`application/octet-stream` with a non-empty body, and applying the body
to a fresh document yields title "Untitled Notebook" and exactly two
cells: a markdown cell whose content starts with "# New Notebook"
followed by a code cell whose content starts with
"# Write Python code here". -/
theorem coldstart_snapshot_default (fresh : List Str → Str) (id1 id2 : Str) :
    (snapshotGet (coldStartHydrate fresh id1 id2 none).doc).status = 200 ∧
    (snapshotGet (coldStartHydrate fresh id1 id2 none).doc).contentType =
      "application/octet-stream".toList ∧
    (snapshotGet (coldStartHydrate fresh id1 id2 none).doc).body ≠ emptyNotebookDoc ∧
    (coldStartHydrate fresh id1 id2 none).storage.isSome = true ∧
    (applyUpdateToFreshDoc
      (snapshotGet (coldStartHydrate fresh id1 id2 none).doc).body).title = defaultTitle ∧
    (applyUpdateToFreshDoc
      (snapshotGet (coldStartHydrate fresh id1 id2 none).doc).body).cells.length = 2 ∧
    (∃ c, (applyUpdateToFreshDoc
        (snapshotGet (coldStartHydrate fresh id1 id2 none).doc).body).cells[0]? =
          some (.cmap c) ∧
      c.type = .vstr ("markdown".toList) ∧
      ∃ s, c.content = .vtext s ∧ ("# New Notebook".toList) <+: s) ∧
    (∃ c, (applyUpdateToFreshDoc
        (snapshotGet (coldStartHydrate fresh id1 id2 none).doc).body).cells[1]? =
          some (.cmap c) ∧
      c.type = .vstr ("code".toList) ∧
      ∃ s, c.content = .vtext s ∧ ("# Write Python code here".toList) <+: s) := by
  obtain ⟨ht, hlen, hst, -, ⟨c0, hc0, hty0, hct0⟩, ⟨c1, hc1, hty1, hct1⟩⟩ :=
    coldStartHydrate_none_spec fresh id1 id2
  refine ⟨rfl, rfl, ?_, hst, ht, hlen, ⟨c0, hc0, hty0, defaultMdContent, hct0, by decide⟩,
    ⟨c1, hc1, hty1, defaultCodeContent, hct1, by decide⟩⟩
  intro h
  have hteq : (coldStartHydrate fresh id1 id2 none).doc.title = emptyNotebookDoc.title :=
    congrArg NotebookDoc.title h
  rw [ht] at hteq
  exact absurd hteq (by decide)

/-- C9 counterexample: a failing snapshot read at cold start is not
treated like an absent snapshot — it propagates as an error and the
coordinator does not reach the seeded, ready state that an absent
snapshot produces. -/
theorem coldstart_read_failure_counterexample :
    coldStartHydrateE witnessFresh ("i1".toList) ("i2".toList)
        (.error ("io".toList)) = .error ("io".toList) ∧
    coldStartHydrateE witnessFresh ("i1".toList) ("i2".toList) (.ok none) =
      .ok (coldStartHydrate witnessFresh ("i1".toList) ("i2".toList) none) ∧
    coldStartHydrateE witnessFresh ("i1".toList) ("i2".toList)
        (.error ("io".toList)) ≠
      coldStartHydrateE witnessFresh ("i1".toList) ("i2".toList) (.ok none) := by
  refine ⟨rfl, rfl, ?_⟩
  intro h
  rw [show coldStartHydrateE witnessFresh ("i1".toList) ("i2".toList) (.ok none) =
    .ok (coldStartHydrate witnessFresh ("i1".toList) ("i2".toList) none) from rfl] at h
  exact Except.noConfusion h

/-- C9 amended: an absent snapshot (storage.get resolves to undefined)
seeds the default notebook, persists it and marks the coordinator
ready, but a failing read propagates the error out of the constructor's
initialization block — the source has no catch around the storage read. -/
theorem coldstart_error_propagates (fresh : List Str → Str) (id1 id2 : Str) (e : Str) :
    coldStartHydrateE fresh id1 id2 (.error e) = .error e ∧
    coldStartHydrateE fresh id1 id2 (.ok none) =
      .ok (coldStartHydrate fresh id1 id2 none) ∧
    (coldStartHydrate fresh id1 id2 none).doc.title = defaultTitle ∧
    (coldStartHydrate fresh id1 id2 none).doc.cells.length = 2 ∧
    (coldStartHydrate fresh id1 id2 none).storage.isSome = true ∧
    (coldStartHydrate fresh id1 id2 none).ready = true := by
  obtain ⟨ht, hlen, hst, hready, -, -⟩ := coldStartHydrate_none_spec fresh id1 id2
  exact ⟨rfl, rfl, ht, hlen, hst, hready⟩

/-! ## Coordinator broadcast (src/unnamed/part_016, update hook lines
114-118, `broadcastUpdate` lines 275-283, `broadcast` lines 285-290)

Sockets are identified by numbers; `state.getWebSockets()` is the list
of currently accepted sockets. -/

/-- A frame built by `broadcastUpdate`: varuint `MESSAGE_SYNC` (0),
then the sync-protocol update submessage tag (2) with the update bytes
(`syncProtocol.writeUpdate`). -/
structure SyncFrame where
  msgType : Nat
  syncType : Nat
  payload : List Nat
deriving DecidableEq

def encodeUpdateFrame (update : List Nat) : SyncFrame := ⟨0, 2, update⟩

/-- `broadcast` (part_016 lines 285-290): send the frame to every
accepted socket, skipping `exclude` when it is a socket
(`if (exclude && ws === exclude) continue`); returns the sends made. -/
def broadcastSends (sockets : List Nat) (frame : SyncFrame) (exclude : Option Nat) :
    List (Nat × SyncFrame) :=
  (match exclude with
   | some e => sockets.filter (fun w => w ≠ e)
   | none => sockets).map (fun w => (w, frame))

/-- `broadcastUpdate` (part_016 lines 275-283): wrap the update into a
SYNC frame and broadcast it, excluding the origin when the origin is a
WebSocket. -/
def broadcastUpdate (sockets : List Nat) (update : List Nat) (origin : Option Nat) :
    List (Nat × SyncFrame) :=
  broadcastSends sockets (encodeUpdateFrame update) origin

/-- The `doc.on("update", ...)` hook (part_016 lines 114-118): nothing
is sent while initializing; afterwards the update is broadcast with the
origin excluded. -/
def docUpdateHook (initializing : Bool) (sockets : List Nat) (update : List Nat)
    (origin : Option Nat) : List (Nat × SyncFrame) :=
  if initializing then [] else broadcastUpdate sockets update origin

/-- C5: after initialization, an update originating from socket `s` is
broadcast as a SYNC update frame to exactly the accepted sockets other
than `s`; `s` never receives its own update back. -/
theorem broadcastUpdate_excludes_origin (sockets : List Nat) (update : List Nat) (s : Nat) :
    docUpdateHook false sockets update (some s) =
      (sockets.filter (fun w => w ≠ s)).map (fun w => (w, encodeUpdateFrame update)) ∧
    (∀ fr, (s, fr) ∉ docUpdateHook false sockets update (some s)) ∧
    (∀ w, w ∈ sockets → w ≠ s →
      (w, encodeUpdateFrame update) ∈ docUpdateHook false sockets update (some s)) := by
  refine ⟨rfl, ?_, ?_⟩
  · intro fr hmem
    rw [show docUpdateHook false sockets update (some s) =
      (sockets.filter (fun w => w ≠ s)).map (fun w => (w, encodeUpdateFrame update))
      from rfl] at hmem
    rw [List.mem_map] at hmem
    obtain ⟨w, hw, heq⟩ := hmem
    have hws : w = s := congrArg Prod.fst heq
    rw [List.mem_filter, hws] at hw
    simpa using hw.2
  · intro w hw hne
    rw [show docUpdateHook false sockets update (some s) =
      (sockets.filter (fun w => w ≠ s)).map (fun w => (w, encodeUpdateFrame update))
      from rfl]
    exact List.mem_map_of_mem _ (List.mem_filter.mpr ⟨hw, by simpa using hne⟩)

/-- Witness for `broadcastUpdate_excludes_origin` at a concrete socket set. -/
theorem broadcastUpdate_excludes_origin_witness :
    docUpdateHook false [1, 2, 3] [7] (some 2) =
      (([1, 2, 3] : List Nat).filter (fun w => w ≠ 2)).map
        (fun w => (w, encodeUpdateFrame [7])) ∧
    (∀ fr, (2, fr) ∉ docUpdateHook false [1, 2, 3] [7] (some 2)) ∧
    (∀ w, w ∈ ([1, 2, 3] : List Nat) → w ≠ 2 →
      (w, encodeUpdateFrame [7]) ∈ docUpdateHook false [1, 2, 3] [7] (some 2)) :=
  broadcastUpdate_excludes_origin [1, 2, 3] [7] 2

/-! ## Client awareness peer count (src/unnamed/part_013 lines 84-111)

An awareness registry is the list of `(clientId, meta lastUpdated)`
pairs of `awareness.getStates()` (a Map, so keys are distinct);
`lastUpdated` is `none` when the meta entry is absent or not a number. -/

def COLLAB_STALE_MS : Int := 60000

/-- `getActiveAwarenessClientIds` (part_013 lines 84-105): include the
local client id whenever present; skip another peer only when its
`lastUpdated` is a number older than 60 seconds.  An entry without a
numeric `lastUpdated` is included whether or not it is the local id, so
that branch collapses to one unconditional include. -/
def getActiveAwarenessClientIds : List (Nat × Option Int) → Nat → Int → List Nat
  | [], _, _ => []
  | (id, some t) :: rest, localClientId, now =>
    if id = localClientId then
      id :: getActiveAwarenessClientIds rest localClientId now
    else if now - t > COLLAB_STALE_MS then
      getActiveAwarenessClientIds rest localClientId now
    else
      id :: getActiveAwarenessClientIds rest localClientId now
  | (id, none) :: rest, localClientId, now =>
    id :: getActiveAwarenessClientIds rest localClientId now

/-- `getAwarenessPeerCount` (part_013 lines 107-111):
`Math.max(1, active.length || states.size || 1)` — JS `x || y` yields
`y` when `x` is 0, so an empty active set falls back to the raw state
count. -/
def getAwarenessPeerCount (awareness : Option (List (Nat × Option Int)))
    (localClientId : Nat) (now : Int) : Nat :=
  match awareness with
  | none => 1
  | some states =>
    let active := getActiveAwarenessClientIds states localClientId now
    max 1 (if active.length ≠ 0 then active.length
           else if states.length ≠ 0 then states.length else 1)

/-- The active set as the claim words it: the local client id plus
every other peer whose `lastUpdated` is within 60 seconds of `now`. -/
def specActivePeerIds (states : List (Nat × Option Int))
    (localClientId : Nat) (now : Int) : List Nat :=
  localClientId ::
    (states.filter (fun p =>
      decide (p.1 ≠ localClientId) &&
      match p.2 with
      | some t => decide (now - t ≤ COLLAB_STALE_MS)
      | none => false)).map Prod.fst

/-- The peer count as the claim words it: `max(1, |active|)`. -/
def specPeerCount (states : List (Nat × Option Int))
    (localClientId : Nat) (now : Int) : Nat :=
  max 1 (specActivePeerIds states localClientId now).length

/-- C6 counterexample: with two stale peers and the local client id not
registered in the states map, the code reports the raw state count 2
(the stale peers), while the claimed formula `max(1, |active|)`
gives 1. -/
theorem peerCount_stale_counterexample :
    getAwarenessPeerCount (some [(7, some 0), (8, some 0)]) 1 100000 = 2 ∧
    specPeerCount [(7, some 0), (8, some 0)] 1 100000 = 1 ∧
    (2 : Nat) ≠ 1 := by
  refine ⟨by decide, by decide, by decide⟩

lemma active_subset_keys (states : List (Nat × Option Int)) (localClientId : Nat)
    (now : Int) :
    ∀ x ∈ getActiveAwarenessClientIds states localClientId now,
      x ∈ states.map Prod.fst := by
  induction states with
  | nil => simp [getActiveAwarenessClientIds]
  | cons q rest ih =>
    obtain ⟨id, lu⟩ := q
    intro x hx
    rw [List.map_cons]
    cases lu with
    | some t =>
      rw [show getActiveAwarenessClientIds ((id, some t) :: rest) localClientId now =
        if id = localClientId then id :: getActiveAwarenessClientIds rest localClientId now
        else if now - t > COLLAB_STALE_MS then
          getActiveAwarenessClientIds rest localClientId now
        else id :: getActiveAwarenessClientIds rest localClientId now from rfl] at hx
      split_ifs at hx with h1 h2
      · rcases List.mem_cons.mp hx with hx | hx
        · rw [hx]; exact List.mem_cons_self _ _
        · exact List.mem_cons_of_mem _ (ih x hx)
      · exact List.mem_cons_of_mem _ (ih x hx)
      · rcases List.mem_cons.mp hx with hx | hx
        · rw [hx]; exact List.mem_cons_self _ _
        · exact List.mem_cons_of_mem _ (ih x hx)
    | none =>
      rw [show getActiveAwarenessClientIds ((id, none) :: rest) localClientId now =
        id :: getActiveAwarenessClientIds rest localClientId now from rfl] at hx
      rcases List.mem_cons.mp hx with hx | hx
      · rw [hx]; exact List.mem_cons_self _ _
      · exact List.mem_cons_of_mem _ (ih x hx)

lemma local_mem_active (states : List (Nat × Option Int)) (localClientId : Nat)
    (now : Int) (hmem : localClientId ∈ states.map Prod.fst) :
    localClientId ∈ getActiveAwarenessClientIds states localClientId now := by
  induction states with
  | nil => simp at hmem
  | cons q rest ih =>
    obtain ⟨id, lu⟩ := q
    rw [List.map_cons] at hmem
    cases lu with
    | some t =>
      rw [show getActiveAwarenessClientIds ((id, some t) :: rest) localClientId now =
        if id = localClientId then id :: getActiveAwarenessClientIds rest localClientId now
        else if now - t > COLLAB_STALE_MS then
          getActiveAwarenessClientIds rest localClientId now
        else id :: getActiveAwarenessClientIds rest localClientId now from rfl]
      split_ifs with h1 h2
      · rw [h1]
        exact List.mem_cons_self _ _
      · rcases List.mem_cons.mp hmem with h | h
        · exact absurd h.symm h1
        · exact ih h
      · rcases List.mem_cons.mp hmem with h | h
        · exact absurd h.symm h1
        · exact List.mem_cons_of_mem _ (ih h)
    | none =>
      rw [show getActiveAwarenessClientIds ((id, none) :: rest) localClientId now =
        id :: getActiveAwarenessClientIds rest localClientId now from rfl]
      rcases List.mem_cons.mp hmem with h | h
      · rw [h]
        exact List.mem_cons_self _ _
      · exact List.mem_cons_of_mem _ (ih h)

lemma stale_not_mem_active (states : List (Nat × Option Int)) (localClientId : Nat)
    (now : Int) (p : Nat) (t : Int) (hp : (p, some t) ∈ states)
    (hne : p ≠ localClientId) (hst : now - t > COLLAB_STALE_MS)
    (hnd : (states.map Prod.fst).Nodup) :
    p ∉ getActiveAwarenessClientIds states localClientId now := by
  induction states with
  | nil => simp [getActiveAwarenessClientIds]
  | cons q rest ih =>
    obtain ⟨id, lu⟩ := q
    rw [List.map_cons] at hnd
    have hnd2 := List.nodup_cons.mp hnd
    have hidnot : id ∉ rest.map Prod.fst := hnd2.1
    have hnd' : (rest.map Prod.fst).Nodup := hnd2.2
    intro hmem
    rcases List.mem_cons.mp hp with hhead | htail
    · have hid : id = p := (congrArg Prod.fst hhead).symm
      have hlu : lu = some t := (congrArg Prod.snd hhead).symm
      subst hid
      subst hlu
      rw [show getActiveAwarenessClientIds ((id, some t) :: rest) localClientId now =
        if id = localClientId then id :: getActiveAwarenessClientIds rest localClientId now
        else if now - t > COLLAB_STALE_MS then
          getActiveAwarenessClientIds rest localClientId now
        else id :: getActiveAwarenessClientIds rest localClientId now from rfl,
        if_neg hne, if_pos hst] at hmem
      exact hidnot (active_subset_keys rest localClientId now id hmem)
    · have hpid : p ≠ id := by
        intro hpe
        apply hidnot
        rw [← hpe]
        exact List.mem_map_of_mem Prod.fst htail
      cases lu with
      | some u =>
        rw [show getActiveAwarenessClientIds ((id, some u) :: rest) localClientId now =
          if id = localClientId then id :: getActiveAwarenessClientIds rest localClientId now
          else if now - u > COLLAB_STALE_MS then
            getActiveAwarenessClientIds rest localClientId now
          else id :: getActiveAwarenessClientIds rest localClientId now from rfl] at hmem
        split_ifs at hmem with h1 h2
        · rcases List.mem_cons.mp hmem with h | h
          · exact hpid h
          · exact ih htail hnd' h
        · exact ih htail hnd' hmem
        · rcases List.mem_cons.mp hmem with h | h
          · exact hpid h
          · exact ih htail hnd' h
      | none =>
        rw [show getActiveAwarenessClientIds ((id, none) :: rest) localClientId now =
          id :: getActiveAwarenessClientIds rest localClientId now from rfl] at hmem
        rcases List.mem_cons.mp hmem with h | h
        · exact hpid h
        · exact ih htail hnd' h

/-- C6 amended: whenever the local client id is registered in the
awareness states (the session always registers itself), the reported
peer count is exactly `max(1, |active|)` over the code's active set,
and a peer whose `lastUpdated` is a number more than 60 seconds old
never belongs to that active set (given the map's distinct keys); when
the active set is empty the code instead falls back to the raw state
count, which can include stale peers. -/
theorem peerCount_active_of_local_mem (states : List (Nat × Option Int))
    (localClientId : Nat) (now : Int)
    (hmem : localClientId ∈ states.map Prod.fst) :
    getAwarenessPeerCount (some states) localClientId now =
      max 1 (getActiveAwarenessClientIds states localClientId now).length ∧
    (∀ p t, (p, some t) ∈ states → p ≠ localClientId →
      now - t > COLLAB_STALE_MS → (states.map Prod.fst).Nodup →
      p ∉ getActiveAwarenessClientIds states localClientId now) := by
  constructor
  · have hact := local_mem_active states localClientId now hmem
    have hlen : (getActiveAwarenessClientIds states localClientId now).length ≠ 0 := by
      intro h
      rw [List.length_eq_zero] at h
      rw [h] at hact
      exact List.not_mem_nil _ hact
    unfold getAwarenessPeerCount
    dsimp only
    rw [if_pos hlen]
  · intro p t hp hne hst hnd
    exact stale_not_mem_active states localClientId now p t hp hne hst hnd

/-- Witness for `peerCount_active_of_local_mem` at a concrete registry
with the local client and one stale peer. -/
theorem peerCount_active_of_local_mem_witness :
    getAwarenessPeerCount (some [(1, some 95000), (7, some 0)]) 1 100000 =
      max 1 (getActiveAwarenessClientIds [(1, some 95000), (7, some 0)] 1 100000).length ∧
    (∀ p t, (p, some t) ∈ ([(1, some 95000), (7, some 0)] : List (Nat × Option Int)) →
      p ≠ 1 → (100000 : Int) - t > COLLAB_STALE_MS →
      (([(1, some 95000), (7, some 0)] : List (Nat × Option Int)).map Prod.fst).Nodup →
      p ∉ getActiveAwarenessClientIds [(1, some 95000), (7, some 0)] 1 100000) :=
  peerCount_active_of_local_mem [(1, some 95000), (7, some 0)] 1 100000 (by decide)

/-! ## Client bootstrap with collaboration configured
(src/unnamed/part_013: `tryFetchArrayBuffer` lines 159-171,
`tryApplyRemoteCollabSnapshot` lines 173-192,
`loadNotebookSnapshotIntoDoc` lines 194-233,
`looksLikeDefaultNotebookDoc` lines 113-139, bootstrap IIFE lines
498-521)

`generateId()` is modelled as a supply `gen : Nat → Str` with an
explicit call counter.  `Y.applyUpdate` of arbitrary fetched bytes is an
external-library operation modelled as a parameter
`applyU : NotebookDoc → List Nat → Option NotebookDoc` (`none` when the
library throws, which the source catches).  The fetched snapshot is
`none` when `tryFetchArrayBuffer` returned `null` (network error,
abort/timeout, or non-2xx response). -/

/-- A cell of a notebook held in the external blob store / local backup. -/
structure SavedCell where
  id : Str
  type : Str
  content : Str
deriving DecidableEq

/-- A notebook held in the external blob store / local backup. -/
structure SavedNotebook where
  title : Str
  cells : List SavedCell
deriving DecidableEq

/-- `ensureNotebookInitialized` (part_013 lines 57-75): the client-side
twin of the coordinator's default seeding, drawing ids from the supply;
returns the document and the advanced counter. -/
def ensureNotebookInitialized (gen : Nat → Str) (k : Nat) (d : NotebookDoc) :
    NotebookDoc × Nat :=
  let title := if d.title.length = 0 then defaultTitle else d.title
  if d.cells.length > 0 then (⟨title, d.cells⟩, k)
  else
    (⟨title,
      [.cmap ⟨.vstr (gen k), .vstr ("markdown".toList), .vtext defaultMdContent⟩,
       .cmap ⟨.vstr (gen (k + 1)), .vstr ("code".toList), .vtext defaultCodeContent⟩]⟩,
     k + 2)

/-- The cell-construction loop of `loadNotebookSnapshotIntoDoc`
(part_013 lines 214-224): `cell.id || generateId()`, a single retry on
collision with the used set, then a Y.Map cell with the saved type and
a Y.Text of the saved content. -/
def buildSavedCells (gen : Nat → Str) :
    Nat → List Str → List SavedCell → List CellEntry × Nat
  | k, _, [] => ([], k)
  | k, used, sc :: rest =>
    let p1 : Str × Nat := if sc.id = [] then (gen k, k + 1) else (sc.id, k)
    let p2 : Str × Nat := if p1.1 ∈ used then (gen p1.2, p1.2 + 1) else (p1.1, p1.2)
    let r := buildSavedCells gen p2.2 (used ++ [p2.1]) rest
    (.cmap ⟨.vstr p2.1, .vstr sc.type, .vtext sc.content⟩ :: r.1, r.2)

/-- `loadNotebookSnapshotIntoDoc` (part_013 lines 194-233): abort check
after the storage read; an absent saved notebook only runs
`ensureNotebookInitialized` and reports `false`; otherwise the document
is replaced by the saved title (defaulted when empty) and rebuilt cells,
then `ensureNotebookInitialized` runs and `true` is reported. -/
def loadNotebookSnapshotIntoDoc (gen : Nat → Str) (k : Nat) (d : NotebookDoc)
    (saved : Option SavedNotebook) (aborted : Bool) : (Bool × NotebookDoc) × Nat :=
  if aborted then ((false, d), k)
  else
    match saved with
    | none =>
      let r := ensureNotebookInitialized gen k d
      ((false, r.1), r.2)
    | some nb =>
      let title := if nb.title = [] then defaultTitle else nb.title
      let bc := buildSavedCells gen k [] nb.cells
      let r := ensureNotebookInitialized gen bc.2 ⟨title, bc.1⟩
      ((true, r.1), r.2)

/-- `looksLikeDefaultNotebookDoc` (part_013 lines 113-139): default
title, exactly two Y.Map cells typed markdown-then-code whose trimmed
Y.Text contents equal or start with the default texts.  (A non-map
entry or non-text content fails the `instanceof Y.Text` checks.) -/
def looksLikeDefaultNotebookDoc (d : NotebookDoc) : Bool :=
  if d.title ≠ defaultTitle then false
  else if d.cells.length ≠ 2 then false
  else
    match d.cells[0]?, d.cells[1]? with
    | some (CellEntry.cmap c0), some (CellEntry.cmap c1) =>
      let ty0 := match c0.type with | .vnull => ([] : Str) | v => jsToString v
      let ty1 := match c1.type with | .vnull => ([] : Str) | v => jsToString v
      if ty0 ≠ "markdown".toList ∨ ty1 ≠ "code".toList then false
      else
        match c0.content, c1.content with
        | .vtext t0, .vtext t1 =>
          (decide (jsTrim t0 = defaultMdContent) ||
            decide (("# New Notebook".toList) <+: jsTrim t0)) &&
          (decide (jsTrim t1 = defaultCodeContent) ||
            decide (("# Write Python code here".toList) <+: jsTrim t1))
        | _, _ => false
    | _, _ => false

/-- `tryApplyRemoteCollabSnapshot` (part_013 lines 173-192): `false`
when the fetch returned nothing or the session was disposed; a
non-empty body is applied as a CRDT update (a throwing apply is caught
and reports `false`); an empty 2xx body applies nothing and still
reports `true`. -/
def tryApplyRemoteCollabSnapshot (applyU : NotebookDoc → List Nat → Option NotebookDoc)
    (d : NotebookDoc) (fetched : Option (List Nat)) (aborted : Bool) :
    Bool × NotebookDoc :=
  match fetched with
  | none => (false, d)
  | some buf =>
    if aborted then (false, d)
    else if buf.length > 0 then
      match applyU d buf with
      | some d2 => (true, d2)
      | none => (false, d)
    else (true, d)

inductive CollabStatus where
  | disabled
  | connecting
  | connected
  | fallback
deriving DecidableEq

structure BootstrapResult where
  status : CollabStatus
  doc : NotebookDoc
  seededFromStorage : Bool
deriving DecidableEq

/-- The bootstrap IIFE (part_013 lines 498-521) for a live (undisposed)
session, entered with `collabStatus = connecting`: a failed remote fetch
flips to `fallback` and seeds from blob-store/local storage; a
successful fetch that still looks like the default notebook also seeds
from storage but keeps `connecting`; finally
`ensureNotebookInitialized` always runs. -/
def collabBootstrapStep (applyU : NotebookDoc → List Nat → Option NotebookDoc)
    (gen : Nat → Str) (k : Nat) (doc0 : NotebookDoc)
    (fetched : Option (List Nat)) (saved : Option SavedNotebook) : BootstrapResult :=
  let r1 := tryApplyRemoteCollabSnapshot applyU doc0 fetched false
  if r1.1 = false then
    let r2 := loadNotebookSnapshotIntoDoc gen k r1.2 saved false
    let r3 := ensureNotebookInitialized gen r2.2 r2.1.2
    { status := .fallback, doc := r3.1, seededFromStorage := r2.1.1 }
  else if looksLikeDefaultNotebookDoc r1.2 then
    let r2 := loadNotebookSnapshotIntoDoc gen k r1.2 saved false
    let r3 := ensureNotebookInitialized gen r2.2 r2.1.2
    { status := .connecting, doc := r3.1, seededFromStorage := r2.1.1 }
  else
    let r3 := ensureNotebookInitialized gen k r1.2
    { status := .connecting, doc := r3.1, seededFromStorage := false }

/-- C8 counterexample: a 2xx response with an empty body is not a
"non-empty body", yet the bootstrap does not set `fallback` — the empty
body counts as a successful remote application (`return true` after
skipping the apply), and here it also skips the blob-store/local load. -/
theorem bootstrap_empty_body_counterexample :
    (collabBootstrapStep (fun _ _ => none) (fun _ => "g".toList) 0 emptyNotebookDoc
      (some [])
      (some ⟨"Saved".toList, [⟨"c1".toList, "code".toList, "1".toList⟩]⟩)).status =
      CollabStatus.connecting ∧
    (collabBootstrapStep (fun _ _ => none) (fun _ => "g".toList) 0 emptyNotebookDoc
      (some [])
      (some ⟨"Saved".toList, [⟨"c1".toList, "code".toList, "1".toList⟩]⟩)).seededFromStorage
      = false ∧
    CollabStatus.connecting ≠ CollabStatus.fallback := by
  refine ⟨rfl, rfl, by decide⟩

/-- C8 amended: when the remote snapshot fetch fails (network error,
timeout/abort, or non-2xx — all of which surface as a null buffer), the
session sets `collabStatus = fallback` and loads from the blob store or
local backup, seeding the default notebook when that also fails; only a
non-empty body is ever applied as a CRDT update; but an *empty* 2xx
body is treated as a successful remote application and leaves the
status at `connecting` instead of `fallback`. -/
theorem bootstrap_fallback_on_fetch_failure :
    (∀ (applyU : NotebookDoc → List Nat → Option NotebookDoc) (gen : Nat → Str)
        (k : Nat) (d0 : NotebookDoc) (saved : Option SavedNotebook),
      (collabBootstrapStep applyU gen k d0 none saved).status = CollabStatus.fallback ∧
      (collabBootstrapStep applyU gen k d0 none saved).seededFromStorage = saved.isSome) ∧
    (∀ (applyU : NotebookDoc → List Nat → Option NotebookDoc) (gen : Nat → Str) (k : Nat),
      (collabBootstrapStep applyU gen k emptyNotebookDoc none none).doc.title =
        defaultTitle ∧
      (collabBootstrapStep applyU gen k emptyNotebookDoc none none).doc.cells.length = 2) ∧
    (∀ (applyU : NotebookDoc → List Nat → Option NotebookDoc) (d0 : NotebookDoc),
      tryApplyRemoteCollabSnapshot applyU d0 (some []) false = (true, d0)) ∧
    (∀ (applyU : NotebookDoc → List Nat → Option NotebookDoc) (gen : Nat → Str)
        (k : Nat) (d0 : NotebookDoc) (saved : Option SavedNotebook),
      (collabBootstrapStep applyU gen k d0 (some []) saved).status =
        CollabStatus.connecting) := by
  refine ⟨?_, ?_, ?_, ?_⟩
  · intro applyU gen k d0 saved
    cases saved <;> exact ⟨rfl, rfl⟩
  · intro applyU gen k
    exact ⟨rfl, rfl⟩
  · intro applyU d0
    rfl
  · intro applyU gen k d0 saved
    by_cases h : looksLikeDefaultNotebookDoc d0 = true
    · simp [collabBootstrapStep, tryApplyRemoteCollabSnapshot, h]
    · simp [collabBootstrapStep, tryApplyRemoteCollabSnapshot, h]

end WebpyterNotebook
